import Mathlib

/-!
# Verification of the quant-finance backtest and data-fetch functions

Shallow embedding of `src/function/backtest.py` (`backtest_strategy`) and
`src/function/fetch_stock_data.py` (`fetch_stock_data`).

Numeric values are modelled exactly over `ℚ` (the Python code computes with
floats; the spec's expected values are exact decimals, so exact arithmetic is
the intended semantics).  A pandas `NaN` outcome is modelled as `Option.none`.
A Python exception escaping the function is modelled by the function returning
`none` for its whole result.
-/

namespace Backtest

/-- `df['strategy_returns'] = df['signals'].shift(1) * df['returns']`
followed by `fillna(0)`: position 0 gets `NaN * r₀ ↦ 0`, position `i ≥ 1`
gets `signals[i-1] * returns[i]`.  Prepending `0` to the signals implements
the shift (and the fill of the leading `NaN` with `0`). -/
def strategy_returns (signals returns : List ℚ) : List ℚ :=
  List.zipWith (fun a b => a * b) (0 :: signals) returns

/-- Running left reduction: `running f a [x₀, x₁, …] = [f a x₀, f (f a x₀) x₁, …]`.
This is the shape shared by pandas `cumprod` and `cummax`. -/
def running (f : ℚ → ℚ → ℚ) : ℚ → List ℚ → List ℚ
  | _, [] => []
  | a, x :: t => f a x :: running f (f a x) t

/-- `df['cumulative_returns'] = (1 + df['strategy_returns']).cumprod()`:
entry `i` is `Π_{k ≤ i} (1 + sr[k])`. -/
def cumulative_returns (sr : List ℚ) : List ℚ :=
  running (fun a b => a * b) 1 (sr.map (fun x => 1 + x))

/-- `df['strategy_returns'].mean()` (pandas mean; `0` here in place of `NaN`
for the empty series, which the code never consumes as a number). -/
def mean (xs : List ℚ) : ℚ := xs.sum / (xs.length : ℚ)

/-- Exact value of the square of `df['strategy_returns'].std()`: pandas sample
variance with `ddof = 1`, i.e. `Σ (x - mean)² / (n - 1)`.  For `n ≤ 1` pandas
produces `NaN`; in this model the numerator is `0` there (and for `n = 1` also
the `ℚ` division by `0` is `0`), so `sample_var = 0` exactly on the inputs
where the code's `std` is `0` or `NaN` — the two cases in which the code's
Sharpe expression evaluates to `NaN` (note Python's `NaN != 0` is `True`, but
then `mean / NaN` is again `NaN`). -/
def sample_var (xs : List ℚ) : ℚ :=
  (xs.map (fun x => (x - mean xs) ^ 2)).sum / ((xs.length : ℚ) - 1)

/-- `sharpe_ratio = (mean_return / std_return) * np.sqrt(252) if std_return != 0
else np.nan`, with `std_return = sqrt(sample_var)`.  `none` models the `NaN`
outcome (both the explicit `np.nan` branch for `std == 0` and the propagated
`NaN` when the series has fewer than two entries, where `sample_var = 0` in
this model as explained at `sample_var`). -/
noncomputable def sharpe (xs : List ℚ) : Option ℝ :=
  if sample_var xs = 0 then none
  else some ((mean xs : ℝ) / Real.sqrt (sample_var xs) * Real.sqrt 252)

/-- `df['cumulative_returns'].cummax()`: entry `i` is `max(cr[0..i])`. -/
def cumulative_max : List ℚ → List ℚ
  | [] => []
  | x :: t => running (fun a b => max a b) x (x :: t)

/-- `drawdown = (df['cumulative_returns'] - cumulative_max) / cumulative_max` -/
def drawdown (cr : List ℚ) : List ℚ :=
  List.zipWith (fun c m => (c - m) / m) cr (cumulative_max cr)

/-- `max_drawdown = drawdown.min()` (`none` models the `NaN` on an empty series). -/
def max_drawdown (cr : List ℚ) : Option ℚ := (drawdown cr).min?

/-- The computed entries of the results dictionary (the returned
`Performance DataFrame`'s derived columns plus the four scalars).
`sharpe` is the `'Sharpe Ratio'` entry, `none` standing for `NaN`. -/
structure BacktestResults where
  total_pnl : ℚ
  sharpe : Option ℝ
  max_drawdown : Option ℚ
  cumulative_return : ℚ
  strategy_returns : List ℚ
  cumulative_returns : List ℚ

/-- Everything `backtest_strategy` does after building the
`strategy_returns` column (lines 28-46 of `backtest.py`) depends only on that
column.  `cumulative_return = df['cumulative_returns'].iloc[-1] - 1` raises
`IndexError` on an empty frame, modelled by the whole call yielding `none`. -/
noncomputable def backtest_core (sr : List ℚ) : Option BacktestResults :=
  let cr := cumulative_returns sr
  match cr.getLast? with
  | none => none
  | some last =>
      some { total_pnl := sr.sum
             sharpe := sharpe sr
             max_drawdown := max_drawdown cr
             cumulative_return := last - 1
             strategy_returns := sr
             cumulative_returns := cr }

/-- `backtest_strategy(signals, returns)` for equal-length (list) inputs.
The `plot_charts` path only draws figures and does not affect the result, so
it is not modelled. -/
noncomputable def backtest_strategy (signals returns : List ℚ) : Option BacktestResults :=
  backtest_core (strategy_returns signals returns)

/-- `pd.DataFrame({'signals': s, 'returns': r})` on two `pd.Series` with
default integer indexes of different lengths aligns on the index union,
padding the shorter series with `NaN`.  After `shift(1) *` and `fillna(0)`,
entry `0` and every entry whose signal (at `i-1`) or return (at `i`) is
missing becomes `0`.  (With plain `list` inputs of unequal length the
`DataFrame` constructor instead raises `ValueError`.) -/
def strategy_returns_series (signals returns : List ℚ) : List ℚ :=
  (List.range (max signals.length returns.length)).map (fun i =>
    if 1 ≤ i ∧ i - 1 < signals.length ∧ i < returns.length then
      signals.getD (i - 1) 0 * returns.getD i 0
    else 0)

/-- `backtest_strategy` on two `pd.Series` inputs of possibly different
lengths (the pandas index-alignment path). -/
noncomputable def backtest_strategy_series (signals returns : List ℚ) :
    Option BacktestResults :=
  backtest_core (strategy_returns_series signals returns)

/-- Zero-padding a series on the right to length `n`. -/
def pad_zero (l : List ℚ) (n : ℕ) : List ℚ := l ++ List.replicate (n - l.length) 0

/-! ## Basic lemmas about the embedded operations -/

theorem length_running (f : ℚ → ℚ → ℚ) : ∀ (a : ℚ) (l : List ℚ),
    (running f a l).length = l.length
  | _, [] => rfl
  | a, x :: t => by simp [running, length_running f (f a x) t]

theorem running_getD (f : ℚ → ℚ → ℚ) : ∀ (l : List ℚ) (a : ℚ) (i : ℕ), i < l.length →
    (running f a l).getD i 0 = (l.take (i + 1)).foldl f a
  | [], _, i, h => by simp at h
  | x :: t, a, 0, _ => by simp [running]
  | x :: t, a, i + 1, h => by
      simp only [running, List.getD_cons_succ, List.take_succ_cons, List.foldl_cons]
      exact running_getD f t (f a x) i (by simpa using h)

theorem running_getLast (f : ℚ → ℚ → ℚ) : ∀ (l : List ℚ) (a : ℚ), l ≠ [] →
    (running f a l).getLast? = some (l.foldl f a)
  | [], _, h => absurd rfl h
  | [x], a, _ => rfl
  | x :: y :: t, a, _ => by
      simp only [running, List.foldl_cons]
      rw [List.getLast?_cons_cons]
      exact running_getLast f (y :: t) (f a x) (by simp)

theorem foldl_mul_eq (l : List ℚ) : ∀ a : ℚ, l.foldl (fun x y => x * y) a = a * l.prod := by
  induction l with
  | nil => intro a; simp
  | cons x t ih => intro a; rw [List.foldl_cons, ih, List.prod_cons]; ring

theorem le_foldl_max (l : List ℚ) : ∀ a : ℚ, a ≤ l.foldl max a := by
  induction l with
  | nil => intro a; simp
  | cons x t ih =>
      intro a
      exact le_trans (le_max_left a x) (ih (max a x))

theorem le_foldl_max_of_mem {l : List ℚ} {b : ℚ} (h : b ∈ l) :
    ∀ a : ℚ, b ≤ l.foldl max a := by
  induction l with
  | nil => exact absurd h (List.not_mem_nil b)
  | cons x t ih =>
      intro a
      rw [List.foldl_cons]
      rcases List.mem_cons.mp h with rfl | hb
      · exact le_trans (le_max_right a b) (le_foldl_max t (max a b))
      · exact ih hb (max a x)

theorem foldl_fixed_of_replicate (f : ℚ → ℚ → ℚ) (a c : ℚ) (hf : f a c = a) :
    ∀ k : ℕ, (List.replicate k c).foldl f a = a
  | 0 => rfl
  | k + 1 => by
      rw [List.replicate_succ, List.foldl_cons, hf]
      exact foldl_fixed_of_replicate f a c hf k

theorem running_replicate (f : ℚ → ℚ → ℚ) (a c : ℚ) (hf : f a c = a) :
    ∀ k : ℕ, running f a (List.replicate k c) = List.replicate k a
  | 0 => rfl
  | k + 1 => by
      rw [List.replicate_succ, List.replicate_succ]
      simp only [running, hf]
      rw [running_replicate f a c hf k]

theorem getD_zipWith (f : ℚ → ℚ → ℚ) (as bs : List ℚ) (i : ℕ)
    (h1 : i < as.length) (h2 : i < bs.length) :
    (List.zipWith f as bs).getD i 0 = f (as.getD i 0) (bs.getD i 0) := by
  rw [List.getD_eq_getElem _ _ (by simp; omega), List.getD_eq_getElem _ _ h1,
    List.getD_eq_getElem _ _ h2, List.getElem_zipWith]

theorem length_strategy_returns (s r : List ℚ) (h : s.length = r.length) :
    (strategy_returns s r).length = r.length := by
  simp only [strategy_returns, List.length_zipWith, List.length_cons]
  omega

theorem length_cumulative_returns (sr : List ℚ) :
    (cumulative_returns sr).length = sr.length := by
  rw [cumulative_returns, length_running, List.length_map]

theorem cumulative_returns_getD (sr : List ℚ) (i : ℕ) (h : i < sr.length) :
    (cumulative_returns sr).getD i 0 = ((sr.take (i + 1)).map (fun x => 1 + x)).prod := by
  rw [cumulative_returns, running_getD _ _ _ _ (by simpa using h), ← List.map_take,
    foldl_mul_eq, one_mul]

theorem cumulative_returns_getLast (sr : List ℚ) (h : sr ≠ []) :
    (cumulative_returns sr).getLast? = some ((sr.map (fun x => 1 + x)).prod) := by
  rw [cumulative_returns, running_getLast _ _ _ (by simpa using h), foldl_mul_eq, one_mul]

theorem length_cumulative_max : ∀ cr : List ℚ, (cumulative_max cr).length = cr.length
  | [] => rfl
  | x :: t => by rw [cumulative_max, length_running]

theorem cumulative_max_getD : ∀ (cr : List ℚ) (i : ℕ), i < cr.length →
    (cumulative_max cr).getD i 0 = ((cr.take (i + 1)).max?).getD 0
  | [], i, h => by simp at h
  | x :: t, i, h => by
      rw [cumulative_max, running_getD _ _ _ _ h, List.take_succ_cons]
      have hmax : (x :: t.take i).max? = some ((t.take i).foldl max x) := by
        simp [List.max?]
      rw [hmax, Option.getD_some]
      simp only [List.foldl_cons, max_self]

theorem getD_le_cumulative_max : ∀ (cr : List ℚ) (i : ℕ), i < cr.length →
    cr.getD i 0 ≤ (cumulative_max cr).getD i 0
  | [], i, h => by simp at h
  | x :: t, 0, h => by
      rw [cumulative_max, running_getD _ _ _ _ h]
      simp
  | x :: t, j + 1, h => by
      rw [cumulative_max, running_getD _ _ _ _ h, List.take_succ_cons, List.foldl_cons,
        max_self, List.getD_cons_succ]
      have hj : j < t.length := by simpa using h
      have hmem : t.getD j 0 ∈ t.take (j + 1) := by
        rw [List.getD_eq_getElem _ _ hj]
        have hjt : j < (t.take (j + 1)).length := by simp [hj]
        have hm := List.getElem_mem hjt
        rwa [List.getElem_take] at hm
      exact le_foldl_max_of_mem hmem x

theorem getD_zero_le_cumulative_max : ∀ (cr : List ℚ) (i : ℕ), i < cr.length →
    cr.getD 0 0 ≤ (cumulative_max cr).getD i 0
  | [], i, h => by simp at h
  | x :: t, i, h => by
      rw [cumulative_max, running_getD _ _ _ _ h, List.take_succ_cons, List.foldl_cons,
        max_self, List.getD_cons_zero]
      exact le_foldl_max _ x

theorem length_drawdown (cr : List ℚ) : (drawdown cr).length = cr.length := by
  simp [drawdown, length_cumulative_max]

theorem drawdown_getD (cr : List ℚ) (i : ℕ) (h : i < cr.length) :
    (drawdown cr).getD i 0 =
      (cr.getD i 0 - (cumulative_max cr).getD i 0) / (cumulative_max cr).getD i 0 := by
  rw [drawdown, getD_zipWith _ _ _ _ h (by rw [length_cumulative_max]; exact h)]

/-- Zero sample variance for a constant series: every entry equals the mean,
so the numerator of `sample_var` vanishes. -/
theorem sample_var_eq_zero_of_const (xs : List ℚ)
    (h : ∀ a ∈ xs, ∀ b ∈ xs, a = b) : sample_var xs = 0 := by
  rw [sample_var]
  rcases xs with _ | ⟨c, t⟩
  · simp
  · have hconst : ∀ x ∈ c :: t, x = c := fun x hx =>
      h x hx c (List.mem_cons_self c t)
    have hlen : (((c :: t).length : ℚ)) ≠ 0 := Nat.cast_ne_zero.mpr (by simp)
    have hmean : mean (c :: t) = c := by
      rw [mean, List.sum_eq_card_nsmul (c :: t) c hconst, nsmul_eq_mul,
        mul_div_cancel_left₀ _ hlen]
    have hzero : ((c :: t).map (fun x => (x - mean (c :: t)) ^ 2)).sum = 0 := by
      apply List.sum_eq_zero
      intro y hy
      rcases List.mem_map.mp hy with ⟨x, hx, rfl⟩
      rw [hconst x hx, hmean, sub_self]
      ring
    rw [hzero, zero_div]

/-- The result of `backtest_strategy` on a non-empty strategy-return series,
with all the fields spelled out. -/
theorem backtest_core_of_ne_nil (sr : List ℚ) (h : sr ≠ []) :
    backtest_core sr = some
      { total_pnl := sr.sum
        sharpe := sharpe sr
        max_drawdown := max_drawdown (cumulative_returns sr)
        cumulative_return := (sr.map (fun x => 1 + x)).prod - 1
        strategy_returns := sr
        cumulative_returns := cumulative_returns sr } := by
  rw [backtest_core]
  simp only [cumulative_returns_getLast sr h]

theorem backtest_core_nil : backtest_core [] = none := rfl

theorem backtest_core_isSome (sr : List ℚ) : (backtest_core sr).isSome ↔ sr ≠ [] := by
  rcases sr with _ | ⟨x, t⟩
  · simp [backtest_core_nil]
  · rw [backtest_core_of_ne_nil _ (by simp)]
    simp

/-- The `shift(1)` pairing made explicit: with a non-empty returns series the
first strategy return is `0 * r₀ = 0`. -/
theorem strategy_returns_cons (s : List ℚ) (r0 : ℚ) (rt : List ℚ) :
    strategy_returns s (r0 :: rt) =
      0 :: List.zipWith (fun a b => a * b) s rt := by
  simp [strategy_returns]

theorem strategy_returns_ne_nil (s r : List ℚ) (hr : r ≠ []) :
    strategy_returns s r ≠ [] := by
  rcases r with _ | ⟨r0, rt⟩
  · exact absurd rfl hr
  · rw [strategy_returns_cons]
    simp

/-- `cumulative_return[0] = 1` whenever the first strategy return is `0`. -/
theorem cumulative_returns_getD_zero (sr' : List ℚ) :
    (cumulative_returns (0 :: sr')).getD 0 0 = 1 := by
  rw [cumulative_returns_getD (0 :: sr') 0 (by simp)]
  simp

/-! ## Lemmas about the all-zero-signal runs -/

theorem strategy_returns_replicate_zero (n : ℕ) (r : List ℚ) (h : r.length = n) :
    strategy_returns (List.replicate n 0) r = List.replicate n 0 := by
  rw [strategy_returns, ← List.replicate_succ]
  apply List.ext_getElem
  · simp [h]
  · intro i h1 h2
    simp [List.getElem_zipWith]

theorem cumulative_returns_replicate_zero (n : ℕ) :
    cumulative_returns (List.replicate n 0) = List.replicate n 1 := by
  rw [cumulative_returns, List.map_replicate]
  norm_num
  exact running_replicate _ 1 1 (by norm_num) n

theorem cumulative_max_replicate_one (n : ℕ) (h : 0 < n) :
    cumulative_max (List.replicate n 1) = List.replicate n 1 := by
  obtain ⟨m, rfl⟩ : ∃ m, n = m + 1 := ⟨n - 1, by omega⟩
  rw [List.replicate_succ, cumulative_max, ← List.replicate_succ]
  exact running_replicate _ 1 1 (by simp) (m + 1)

theorem drawdown_replicate_one (n : ℕ) (h : 0 < n) :
    drawdown (List.replicate n 1) = List.replicate n 0 := by
  rw [drawdown, cumulative_max_replicate_one n h, List.zipWith_replicate]
  norm_num

theorem min_replicate_zero (n : ℕ) (h : 0 < n) :
    (List.replicate n (0 : ℚ)).min? = some 0 := by
  obtain ⟨m, rfl⟩ : ∃ m, n = m + 1 := ⟨n - 1, by omega⟩
  rw [List.replicate_succ]
  have hmin : (0 :: List.replicate m (0 : ℚ)).min? =
      some ((List.replicate m (0 : ℚ)).foldl min 0) := by
    simp [List.min?]
  rw [hmin, foldl_fixed_of_replicate _ 0 0 (by simp) m]

/-! ## Lemmas about the pandas Series alignment path -/

theorem pad_zero_length (l : List ℚ) (n : ℕ) (hn : l.length ≤ n) :
    (pad_zero l n).length = n := by
  rw [pad_zero]
  simp
  omega

theorem pad_zero_getD (l : List ℚ) (n : ℕ) (j : ℕ) :
    (pad_zero l n).getD j 0 = l.getD j 0 := by
  rcases Nat.lt_or_ge j l.length with hj | hj
  · rw [pad_zero, List.getD_eq_getElem _ _ (by simp; omega),
      List.getD_eq_getElem _ _ hj, List.getElem_append_left hj]
  · rw [List.getD_eq_default _ _ hj]
    rcases Nat.lt_or_ge j (pad_zero l n).length with hj2 | hj2
    · rw [List.getD_eq_getElem _ _ hj2]
      simp only [pad_zero] at hj2 ⊢
      rw [List.getElem_append_right hj]
      exact List.getElem_replicate 0 _
    · rw [List.getD_eq_default _ _ hj2]

/-- The pandas index-alignment semantics of a mismatched-length run coincide
with zero-padding both series to the longer length: a missing signal or
return makes the corresponding product `NaN`, which `fillna(0)` turns into
`0`, exactly as a `0` factor would. -/
theorem strategy_returns_series_eq_pad (s r : List ℚ) :
    strategy_returns_series s r
      = strategy_returns (pad_zero s (max s.length r.length))
          (pad_zero r (max s.length r.length)) := by
  set m := max s.length r.length with hm
  have hs : s.length ≤ m := le_max_left _ _
  have hrr : r.length ≤ m := le_max_right _ _
  have hps : (pad_zero s m).length = m := pad_zero_length s m hs
  have hpr : (pad_zero r m).length = m := pad_zero_length r m hrr
  apply List.ext_getElem
  · rw [strategy_returns_series, List.length_map, List.length_range,
      length_strategy_returns _ _ (by rw [hps, hpr]), hpr]
  · intro i h1 h2
    have him : i < m := by
      rw [strategy_returns_series, List.length_map, List.length_range] at h1
      exact h1
    simp only [strategy_returns_series, List.getElem_map, List.getElem_range]
    have rhs_eq : (strategy_returns (pad_zero s m) (pad_zero r m))[i]
        = ((0 :: pad_zero s m).getD i 0) * ((pad_zero r m).getD i 0) := by
      simp only [strategy_returns, List.getElem_zipWith]
      rw [← List.getD_eq_getElem (0 :: pad_zero s m) 0 (by simp [hps]; omega),
        ← List.getD_eq_getElem (pad_zero r m) 0 (by rw [hpr]; exact him)]
    rw [rhs_eq, pad_zero_getD r m i]
    rcases i with _ | j
    · simp
    · rw [List.getD_cons_succ, pad_zero_getD s m j]
      by_cases hcond : 1 ≤ j + 1 ∧ j + 1 - 1 < s.length ∧ j + 1 < r.length
      · rw [if_pos hcond]
        rfl
      · rw [if_neg hcond]
        have hnot : ¬(j < s.length ∧ j + 1 < r.length) := by
          intro hb
          exact hcond ⟨by omega, by omega, hb.2⟩
        rcases Nat.lt_or_ge j s.length with hjs | hjs
        · have hjr : r.length ≤ j + 1 := by
            rcases Nat.lt_or_ge (j + 1) r.length with hq | hq
            · exact absurd ⟨hjs, hq⟩ hnot
            · exact hq
          rw [List.getD_eq_default _ _ hjr, mul_zero]
        · rw [List.getD_eq_default _ _ hjs, zero_mul]

end Backtest

namespace FetchData

/-- One OHLCV row of the provider's table (`PriceSeries` row in the spec). -/
structure PriceRow where
  date : ℕ
  open_price : ℚ
  high : ℚ
  low : ℚ
  close : ℚ
  volume : ℕ

/-- Outcome of the one `yf.download` call: either a table of rows or a raised
exception carrying a message. -/
inductive ProviderResult where
  | ok (rows : List PriceRow)
  | err (msg : String)

/-- `fetch_stock_data(ticker, start, end)`, with the external `yf.download`
outcome passed in as `pr`.  First component: the returned value (`none` models
Python `None`).  Second component: the diagnostic lines printed.  The function
is total: every provider outcome maps to a result, i.e. no exception
propagates to the caller. -/
def fetch_stock_data (ticker : String) (pr : ProviderResult) :
    Option (List PriceRow) × List String :=
  match pr with
  | .err e => (none, ["Error fetching data for " ++ ticker ++ ": " ++ e])
  | .ok rows =>
      if rows.length = 0 then (none, ["No data for " ++ ticker])
      else (some rows, [])

end FetchData

/-! ## The claims -/

open Backtest

/-- C1: for signals `[0, 1, 1, -1]` and returns `[0.01, 0.02, -0.01, 0.03]`,
the run produces `strategy_return = [0, 0, -0.01, 0.03]`,
`cumulative_return = [1, 1, 0.99, 1.0197]`, final cumulative return `0.0197`,
and `total_pnl = 0.02`. -/
theorem claim_C1 :
    (backtest_strategy [0, 1, 1, -1] [1/100, 1/50, -1/100, 3/100]).map
        (fun res => (res.strategy_returns, res.cumulative_returns,
          res.cumulative_return, res.total_pnl))
      = some ([0, 0, -1/100, 3/100], [1, 1, 99/100, 10197/10000],
          197/10000, 1/50) := by
  norm_num [backtest_strategy, backtest_core, strategy_returns,
    cumulative_returns, running]

/-- C2: for equal-length inputs, the strategy return at position `0` is `0`,
at positions `i ≥ 1` it is `signal[i-1] * return[i]`, and the cumulative
return at position `i` is `Π_{k ≤ i} (1 + strategy_return[k])`. -/
theorem claim_C2 (s r : List ℚ) (i : ℕ) (h : s.length = r.length)
    (hi : i < r.length) :
    (strategy_returns s r).length = r.length ∧
    (strategy_returns s r).getD 0 0 = 0 ∧
    (1 ≤ i → (strategy_returns s r).getD i 0 = s.getD (i - 1) 0 * r.getD i 0) ∧
    (cumulative_returns (strategy_returns s r)).getD i 0
      = (((strategy_returns s r).take (i + 1)).map (fun x => 1 + x)).prod := by
  have hlen := length_strategy_returns s r h
  refine ⟨hlen, ?_, ?_, ?_⟩
  · rcases r with _ | ⟨r0, rt⟩
    · simp [strategy_returns]
    · rw [strategy_returns_cons]
      simp
  · intro h1
    obtain ⟨j, rfl⟩ : ∃ j, i = j + 1 := ⟨i - 1, by omega⟩
    rw [strategy_returns, getD_zipWith _ _ _ _ (by simp; omega) hi,
      List.getD_cons_succ]
    simp
  · exact cumulative_returns_getD _ i (by omega)

/-- C2 witness at signals `[2, 3]`, returns `[5, 7]`, position `1`. -/
theorem claim_C2_witness :
    (strategy_returns [2, 3] [5, 7]).length = ([5, 7] : List ℚ).length ∧
    (strategy_returns [2, 3] [5, 7]).getD 0 0 = 0 ∧
    (1 ≤ 1 → (strategy_returns [2, 3] [5, 7]).getD 1 0
      = ([2, 3] : List ℚ).getD 0 0 * ([5, 7] : List ℚ).getD 1 0) ∧
    (cumulative_returns (strategy_returns [2, 3] [5, 7])).getD 1 0
      = (((strategy_returns [2, 3] [5, 7]).take 2).map (fun x => 1 + x)).prod :=
  claim_C2 [2, 3] [5, 7] 1 rfl (by norm_num)

/-- C9: when the provider raises (network error, invalid symbol, rate limit)
or returns zero rows, `fetch_stock_data` prints a diagnostic and returns
`None`; being a total function of the provider outcome, no exception
propagates to the caller. -/
theorem claim_C9 (ticker : String) (pr : FetchData.ProviderResult)
    (h : (∃ e, pr = FetchData.ProviderResult.err e) ∨
      pr = FetchData.ProviderResult.ok []) :
    (FetchData.fetch_stock_data ticker pr).1 = none ∧
    (FetchData.fetch_stock_data ticker pr).2 ≠ [] := by
  rcases h with ⟨e, rfl⟩ | rfl
  · simp [FetchData.fetch_stock_data]
  · simp [FetchData.fetch_stock_data]

/-- C9 witness: the zero-rows outcome for a concrete ticker. -/
theorem claim_C9_witness :
    (FetchData.fetch_stock_data ("AAPL") (FetchData.ProviderResult.ok [])).1 = none ∧
    (FetchData.fetch_stock_data ("AAPL") (FetchData.ProviderResult.ok [])).2 ≠ [] :=
  claim_C9 ("AAPL") (FetchData.ProviderResult.ok []) (Or.inr rfl)

/-- C10: on empty inputs the run yields no result (the `iloc[-1]` read of the
last cumulative return has nothing to read, modelled as `none`); for
equal-length inputs a result exists exactly when the input is non-empty. -/
theorem claim_C10 :
    backtest_strategy [] [] = none ∧
    ∀ s r : List ℚ, s.length = r.length →
      ((backtest_strategy s r).isSome ↔ s ≠ []) := by
  constructor
  · rfl
  · intro s r h
    rw [backtest_strategy, backtest_core_isSome]
    have hl := length_strategy_returns s r h
    rw [ne_eq, ne_eq, ← List.length_eq_zero, ← List.length_eq_zero, hl, h]

/-- C10 witness: a concrete non-empty input yields a result. -/
theorem claim_C10_witness :
    backtest_strategy [] [] = none ∧
    ((backtest_strategy [1] [2]).isSome ↔ ([1] : List ℚ) ≠ []) :=
  ⟨claim_C10.1, claim_C10.2 [1] [2] rfl⟩

/-- C5: an all-zero signal series produces all-zero strategy returns, all-one
cumulative returns, `max_drawdown = 0`, and `total_pnl = 0` (and the final
cumulative return is `0`; the Sharpe ratio is the `NaN` sentinel). -/
theorem claim_C5 (n : ℕ) (r : List ℚ) (hlen : r.length = n) (hn : 0 < n) :
    backtest_strategy (List.replicate n 0) r = some
      { total_pnl := 0
        sharpe := none
        max_drawdown := some 0
        cumulative_return := 0
        strategy_returns := List.replicate n 0
        cumulative_returns := List.replicate n 1 } := by
  have hne : (List.replicate n (0 : ℚ)) ≠ [] := by
    rw [ne_eq, ← List.length_eq_zero]
    simp
    omega
  rw [backtest_strategy, strategy_returns_replicate_zero n r hlen,
    backtest_core_of_ne_nil _ hne, cumulative_returns_replicate_zero]
  simp only [Option.some.injEq, BacktestResults.mk.injEq]
  refine ⟨by simp, ?_, ?_, ?_, trivial, trivial⟩
  · rw [sharpe, if_pos]
    apply sample_var_eq_zero_of_const
    intro a ha b hb
    rw [List.eq_of_mem_replicate ha, List.eq_of_mem_replicate hb]
  · rw [max_drawdown, drawdown_replicate_one n hn, min_replicate_zero n hn]
  · norm_num [List.map_replicate, List.prod_replicate]

/-- C5 witness at `n = 2`, returns `[1/2, -3]`. -/
theorem claim_C5_witness :
    backtest_strategy (List.replicate 2 0) [1/2, -3] = some
      { total_pnl := 0
        sharpe := none
        max_drawdown := some 0
        cumulative_return := 0
        strategy_returns := List.replicate 2 0
        cumulative_returns := List.replicate 2 1 } :=
  claim_C5 2 [1/2, -3] rfl (by norm_num)

/-- C8: for any strategy-return series, if every entry up to position `i`
exceeds `-1`, the cumulative return at position `i` is non-negative (a
product of positive factors). -/
theorem claim_C8 (sr : List ℚ) (i : ℕ) (hi : i < sr.length)
    (h : ∀ k, k ≤ i → -1 < sr.getD k 0) :
    0 ≤ (cumulative_returns sr).getD i 0 := by
  rw [cumulative_returns_getD sr i hi]
  apply List.prod_nonneg
  intro x hx
  rcases List.mem_map.mp hx with ⟨y, hy, rfl⟩
  rcases List.mem_iff_getElem.mp hy with ⟨k, hk, rfl⟩
  have hk1 : k < sr.length := by simp at hk; omega
  have hki : k ≤ i := by simp at hk; omega
  have hgt := h k hki
  rw [List.getD_eq_getElem _ _ hk1] at hgt
  rw [List.getElem_take]
  linarith

/-- C8 witness: `sr = [0, 1/2, -1/2]`, position `2`. -/
theorem claim_C8_witness : 0 ≤ (cumulative_returns [0, 1/2, -1/2]).getD 2 0 :=
  claim_C8 [0, 1/2, -1/2] 2 (by norm_num)
    (by intro k hk; interval_cases k <;> norm_num)

/-- C3 counterexample: the claim offers "constant nonzero signal with
constant nonzero return" as an example of zero variance, but with signals
`[1, 1]` and returns `[0.01, 0.01]` the strategy returns are `[0, 0.01]`
(the first entry is pinned to `0` by the shift), the sample variance is
nonzero and the run's Sharpe ratio is a real number, not the `NaN`
sentinel. -/
theorem claim_C3_cex :
    sample_var (strategy_returns [1, 1] [1/100, 1/100]) ≠ 0 ∧
    (backtest_strategy [1, 1] [1/100, 1/100]).map (fun res => res.sharpe)
      ≠ some none := by
  have hv : sample_var (strategy_returns [1, 1] [1/100, 1/100]) ≠ 0 := by
    norm_num [sample_var, mean, strategy_returns]
  refine ⟨hv, ?_⟩
  rw [backtest_strategy, backtest_core_of_ne_nil _
    (strategy_returns_ne_nil [1, 1] [1/100, 1/100] (by simp))]
  simp only [Option.map_some']
  rw [sharpe, if_neg hv]
  simp

/-- C3 (amended): on every equal-length non-empty input whose strategy
returns have zero variance — e.g. all-zero signals; a constant nonzero
signal with constant nonzero return is NOT such an input — the run's Sharpe
ratio is the `NaN` sentinel (`none`), not an exception; and when the
standard deviation is nonzero the Sharpe ratio is
`mean / stddev * sqrt 252`. -/
theorem claim_C3_amended (s r : List ℚ) (h : s.length = r.length) (hr : r ≠ []) :
    ((∀ a ∈ strategy_returns s r, ∀ b ∈ strategy_returns s r, a = b) →
      (backtest_strategy s r).map (fun res => res.sharpe) = some none) ∧
    (sample_var (strategy_returns s r) ≠ 0 →
      (backtest_strategy s r).map (fun res => res.sharpe)
        = some (some ((mean (strategy_returns s r) : ℝ)
            / Real.sqrt ((sample_var (strategy_returns s r) : ℝ))
            * Real.sqrt 252))) := by
  rw [backtest_strategy, backtest_core_of_ne_nil _ (strategy_returns_ne_nil s r hr)]
  constructor
  · intro hconst
    simp only [Option.map_some']
    rw [sharpe, if_pos (sample_var_eq_zero_of_const _ hconst)]
  · intro hv
    simp only [Option.map_some']
    rw [sharpe, if_neg hv]

/-- C3 witness: the `NaN` case at signals `[1, 1]`, returns `[0, 0]`, and the
defined case at signals `[1, 1]`, returns `[1, 1]`. -/
theorem claim_C3_witness :
    (backtest_strategy [1, 1] [0, 0]).map (fun res => res.sharpe) = some none ∧
    (backtest_strategy [1, 1] [1, 1]).map (fun res => res.sharpe)
      = some (some ((mean (strategy_returns [1, 1] [1, 1]) : ℝ)
          / Real.sqrt ((sample_var (strategy_returns [1, 1] [1, 1]) : ℝ))
          * Real.sqrt 252)) := by
  constructor
  · refine (claim_C3_amended [1, 1] [0, 0] rfl (by simp)).1 ?_
    have hsr : strategy_returns [1, 1] [0, 0] = [0, 0] := by
      norm_num [strategy_returns]
    rw [hsr]
    intro a ha b hb
    simp at ha hb
    rw [ha, hb]
  · exact (claim_C3_amended [1, 1] [1, 1] rfl (by simp)).2
      (by norm_num [sample_var, mean, strategy_returns])

/-- C4: for a non-empty equal-length input, at every position `i` the
drawdown is `(cumulative_return[i] - running_max[i]) / running_max[i]` with
`running_max[i] = max(cumulative_return[0..i])`, the drawdown is `≤ 0`, and
the run's `max_drawdown` is the minimum of the drawdown series. -/
theorem claim_C4 (s r : List ℚ) (i : ℕ) (h : s.length = r.length) (hr : r ≠ [])
    (hi : i < r.length) :
    (drawdown (cumulative_returns (strategy_returns s r))).getD i 0
      = ((cumulative_returns (strategy_returns s r)).getD i 0
          - (((cumulative_returns (strategy_returns s r)).take (i + 1)).max?).getD 0)
        / (((cumulative_returns (strategy_returns s r)).take (i + 1)).max?).getD 0 ∧
    (drawdown (cumulative_returns (strategy_returns s r))).getD i 0 ≤ 0 ∧
    (backtest_strategy s r).map (fun res => res.max_drawdown)
      = some ((drawdown (cumulative_returns (strategy_returns s r))).min?) := by
  obtain ⟨r0, rt, rfl⟩ : ∃ r0 rt, r = r0 :: rt := by
    cases r with
    | nil => exact absurd rfl hr
    | cons r0 rt => exact ⟨r0, rt, rfl⟩
  have hlen : (strategy_returns s (r0 :: rt)).length = (r0 :: rt).length :=
    length_strategy_returns _ _ h
  have hicr : i < (cumulative_returns (strategy_returns s (r0 :: rt))).length := by
    rw [length_cumulative_returns, hlen]
    exact hi
  have hdd := drawdown_getD _ i hicr
  have hcm := cumulative_max_getD _ i hicr
  have hub := getD_le_cumulative_max _ i hicr
  have h0 : (cumulative_returns (strategy_returns s (r0 :: rt))).getD 0 0 = 1 := by
    rw [strategy_returns_cons]
    exact cumulative_returns_getD_zero _
  have hpos : 0 < (cumulative_max (cumulative_returns
      (strategy_returns s (r0 :: rt)))).getD i 0 := by
    have hlb := getD_zero_le_cumulative_max _ i hicr
    rw [h0] at hlb
    linarith
  refine ⟨by rw [hdd, hcm], ?_, ?_⟩
  · rw [hdd]
    exact div_nonpos_of_nonpos_of_nonneg (by linarith) (le_of_lt hpos)
  · rw [backtest_strategy, backtest_core_of_ne_nil _
      (strategy_returns_ne_nil s _ hr)]
    simp only [Option.map_some']
    rw [max_drawdown]

/-- C4 witness at signals `[1, 1]`, returns `[1/2, -1/2]`, position `1`. -/
theorem claim_C4_witness :
    (drawdown (cumulative_returns (strategy_returns [1, 1] [1/2, -1/2]))).getD 1 0
      = ((cumulative_returns (strategy_returns [1, 1] [1/2, -1/2])).getD 1 0
          - (((cumulative_returns (strategy_returns [1, 1] [1/2, -1/2])).take 2).max?).getD 0)
        / (((cumulative_returns (strategy_returns [1, 1] [1/2, -1/2])).take 2).max?).getD 0 ∧
    (drawdown (cumulative_returns (strategy_returns [1, 1] [1/2, -1/2]))).getD 1 0 ≤ 0 ∧
    (backtest_strategy [1, 1] [1/2, -1/2]).map (fun res => res.max_drawdown)
      = some ((drawdown (cumulative_returns (strategy_returns [1, 1] [1/2, -1/2]))).min?) :=
  claim_C4 [1, 1] [1/2, -1/2] 1 rfl (by simp) (by norm_num)

/-- C6 counterexample: swapping the two rows of signals `[1, 0]`, returns
`[0, 1]` (the same permutation applied to both series) changes `total_pnl`
from `1` to `0` and the final cumulative return from `1` to `0`, because the
shift pairs each return with the previous row's signal. -/
theorem claim_C6_cex :
    (List.zip ([1, 0] : List ℚ) ([0, 1] : List ℚ)).Perm
      (List.zip ([0, 1] : List ℚ) ([1, 0] : List ℚ)) ∧
    (backtest_strategy [1, 0] [0, 1]).map
        (fun res => (res.total_pnl, res.cumulative_return))
      ≠ (backtest_strategy [0, 1] [1, 0]).map
          (fun res => (res.total_pnl, res.cumulative_return)) := by
  constructor
  · decide
  · norm_num [backtest_strategy, backtest_core, strategy_returns,
      cumulative_returns, running]

/-- C6 (amended): permuting the two input series identically does change
`total_pnl` and the final cumulative return in general; what is
order-independent is the aggregation of the strategy-return series: any two
inputs whose computed strategy returns are permutations of each other give
the same `total_pnl` (a sum) and the same final cumulative return (a product
of `1 + x` factors). -/
theorem claim_C6_amended (s₁ r₁ s₂ r₂ : List ℚ)
    (h : (strategy_returns s₁ r₁).Perm (strategy_returns s₂ r₂)) :
    (backtest_strategy s₁ r₁).map (fun res => (res.total_pnl, res.cumulative_return))
      = (backtest_strategy s₂ r₂).map
          (fun res => (res.total_pnl, res.cumulative_return)) := by
  rcases eq_or_ne (strategy_returns s₁ r₁) [] with h1 | h1
  · have h2 : strategy_returns s₂ r₂ = [] := by
      have hl := h.length_eq
      rw [h1] at hl
      exact List.length_eq_zero.mp hl.symm
    rw [backtest_strategy, backtest_strategy, h1, h2]
  · have h2 : strategy_returns s₂ r₂ ≠ [] := by
      intro h2
      rw [h2] at h
      exact h1 (List.length_eq_zero.mp (by simpa using h.length_eq))
    rw [backtest_strategy, backtest_strategy,
      backtest_core_of_ne_nil _ h1, backtest_core_of_ne_nil _ h2]
    simp only [Option.map_some']
    rw [h.sum_eq, (h.map (fun x => 1 + x)).prod_eq]

/-- C6 witness: signals `[1, 2, 3]` / returns `[1, 1, 1]` and signals
`[2, 1, 9]` / returns `[1, 1, 1]` have permuted strategy returns
(`[0, 1, 2]` vs `[0, 2, 1]`) and equal aggregates. -/
theorem claim_C6_amended_witness :
    (backtest_strategy [1, 2, 3] [1, 1, 1]).map
        (fun res => (res.total_pnl, res.cumulative_return))
      = (backtest_strategy [2, 1, 9] [1, 1, 1]).map
          (fun res => (res.total_pnl, res.cumulative_return)) :=
  claim_C6_amended [1, 2, 3] [1, 1, 1] [2, 1, 9] [1, 1, 1] (by
    have e1 : strategy_returns [1, 2, 3] [1, 1, 1] = [0, 1, 2] := by
      norm_num [strategy_returns]
    have e2 : strategy_returns [2, 1, 9] [1, 1, 1] = [0, 2, 1] := by
      norm_num [strategy_returns]
    rw [e1, e2]
    exact List.Perm.cons 0 (List.Perm.swap _ _ _))

/-- C7 counterexample: with a length-1 signal series and a length-3 returns
series, the pandas Series-alignment run has `total_pnl = 2` (the surviving
shifted pairing `signal[0] * return[1]`), while the run on the aligned
prefix of length `min 1 3 = 1` has `total_pnl = 0` — so the mismatch is not
handled by truncation to the aligned prefix. -/
theorem claim_C7_cex :
    ([1] : List ℚ).length ≠ ([1, 2, 4] : List ℚ).length ∧
    (backtest_strategy_series [1] [1, 2, 4]).map (fun res => res.total_pnl)
      ≠ (backtest_strategy
            (([1] : List ℚ).take (min ([1] : List ℚ).length ([1, 2, 4] : List ℚ).length))
            (([1, 2, 4] : List ℚ).take (min ([1] : List ℚ).length ([1, 2, 4] : List ℚ).length))).map
          (fun res => res.total_pnl) := by
  constructor
  · norm_num
  · norm_num [backtest_strategy_series, backtest_strategy, backtest_core,
      strategy_returns_series, strategy_returns, cumulative_returns, running,
      List.range_succ]

/-- C7 (amended): with `pd.Series` inputs the run does not validate a length
mismatch and raises no error, but the semantics is zero-padding both series
to the longer length (missing pairings contribute `0` strategy return), not
truncation to the aligned prefix; on equal lengths the Series path agrees
with the plain run.  (With plain `list` inputs of unequal length the pandas
`DataFrame` constructor raises `ValueError` instead.) -/
theorem claim_C7_amended (s r : List ℚ) :
    backtest_strategy_series s r
      = backtest_strategy (pad_zero s (max s.length r.length))
          (pad_zero r (max s.length r.length)) ∧
    (s.length = r.length → backtest_strategy_series s r = backtest_strategy s r) := by
  constructor
  · rw [backtest_strategy_series, backtest_strategy, strategy_returns_series_eq_pad]
  · intro h
    have hm : max s.length r.length = s.length := by rw [h, max_self]
    have h1 : pad_zero s (max s.length r.length) = s := by
      rw [hm, pad_zero, Nat.sub_self, List.replicate_zero, List.append_nil]
    have h2 : pad_zero r (max s.length r.length) = r := by
      rw [hm, h, pad_zero, Nat.sub_self, List.replicate_zero, List.append_nil]
    rw [backtest_strategy_series, backtest_strategy, strategy_returns_series_eq_pad,
      h1, h2]

/-- C7 witness: the padding identity at the mismatched input `[1]` /
`[1, 2, 4]` and the equal-length agreement at `[5]` / `[7]`. -/
theorem claim_C7_amended_witness :
    backtest_strategy_series [1] [1, 2, 4]
      = backtest_strategy
          (pad_zero [1] (max ([1] : List ℚ).length ([1, 2, 4] : List ℚ).length))
          (pad_zero [1, 2, 4] (max ([1] : List ℚ).length ([1, 2, 4] : List ℚ).length)) ∧
    backtest_strategy_series [5] [7] = backtest_strategy [5] [7] :=
  ⟨(claim_C7_amended [1] [1, 2, 4]).1, (claim_C7_amended [5] [7]).2 rfl⟩
